import Mathlib

/-!
Verification of the financial_OCR repository (src/app.py, src/landingai_client.py,
src/processing.py) against its natural-language specification.

Conventions of the shallow embedding:
  - Python floats are modelled as rationals (`ℚ`); the claims under study are
    exact linear arithmetic over the inputs, so no rounding model is needed.
  - A Python attribute that may be absent or `None` is modelled as `Option`;
    `none` covers both "attribute missing" and "attribute set to None", because
    every access site in the sources treats the two alike (via
    `getattr(..., default)` combined with `or`-fallback), except where noted in
    a definition's doc comment.
  - Stateful code (temp files, in-place image mutation) is modelled by explicit
    state passing; code that can raise is modelled with `Except`/`Option`.
-/

namespace FinancialOCR

/-- A normalized bounding box as found on `chunk.grounding.box` in the SDK
response: fields `left`, `top`, `right`, `bottom` (floats, nominally in
`[0,1]`).  Modelled with rational coordinates. -/
structure BBox where
  left : ℚ
  top : ℚ
  right : ℚ
  bottom : ℚ
deriving DecidableEq, Repr

/-- A chunk's spatial grounding: page index plus optional box
(`grounding.page`, `grounding.box`). `page` is an integer; the sources apply
`int(...)` to it, which is the identity on an integer value. -/
structure Grounding where
  page : ℤ
  box : Option BBox
deriving DecidableEq, Repr

/-- One SDK response chunk.  The fields `type`, `markdown`, `text` and
`grounding` are each optionally present (`none` = attribute missing or
`None`).  `type` is modelled as a string (the sources immediately apply
`str(...)` to it). -/
structure Chunk where
  type : Option String
  markdown : Option String
  text : Option String
  grounding : Option Grounding
deriving DecidableEq, Repr

/-- The SDK parse response as consumed by the sources: an object with an
optional `chunks` attribute (`none` = attribute missing or `None`). -/
structure ParseResult where
  chunks : Option (List Chunk)
deriving DecidableEq, Repr

/-- The slice of a PIL image the sources consume: `image.size = (width,
height)` in pixels. -/
structure PILImage where
  width : ℕ
  height : ℕ
deriving DecidableEq, Repr

/-- The `Box` dataclass of `src/processing.py` (the spec's "Rectangle
record"): one detected region on one page, in pixel-space coordinates. -/
structure Box where
  page_index : ℤ
  x1 : ℚ
  y1 : ℚ
  x2 : ℚ
  y2 : ℚ
  label : String
  text : String
deriving DecidableEq, Repr

/-- The label of a chunk: `str(getattr(chunk, "type", "chunk"))`
(`src/landingai_client.py` line 79). -/
def chunkLabel (c : Chunk) : String :=
  (c.type).getD "chunk"

/-- The text of a chunk:
`str(getattr(chunk, "markdown", "") or getattr(chunk, "text", ""))`
(`src/landingai_client.py` lines 80-83): an empty / missing / `None` markdown
falls back to the `text` attribute.  (The corner where both attributes are
present and `None`, making Python render the string `"None"`, is not
distinguished by this model; no access pattern in the sources reaches it with
the SDK's schema.) -/
def chunkText (c : Chunk) : String :=
  let m := (c.markdown).getD ""
  if m = "" then (c.text).getD "" else m

/-- The per-chunk body of the loop in `extract_bounding_boxes`
(`src/landingai_client.py` lines 77-114): `none` when the chunk has no
grounding or its grounding has no box (the `continue` on line 90), otherwise
the `Box` built by scaling the normalized box by the image's pixel size. -/
def chunkBox (image : PILImage) (c : Chunk) : Option Box :=
  match c.grounding with
  | none => none
  | some grounding =>
    match grounding.box with
    | none => none
    | some b =>
      some
        { page_index := grounding.page
          x1 := b.left * image.width
          y1 := b.top * image.height
          x2 := b.right * image.width
          y2 := b.bottom * image.height
          label := chunkLabel c
          text := chunkText c }

/-- `extract_bounding_boxes(parse_result, image)`
(`src/landingai_client.py` lines 58-115).  The guard
`getattr(parse_result, "chunks", []) or []` maps a missing / `None` / empty
`chunks` attribute to the empty list; the loop appends one `Box` per chunk
that carries a grounding box, in chunk order. -/
def extract_bounding_boxes (parse_result : ParseResult) (image : PILImage) :
    List Box :=
  ((parse_result.chunks).getD []).filterMap (chunkBox image)

/-! ### Page markdown aggregation (`src/app.py` lines 105-112)

The loop in `main` builds a dict `pages` from page index to concatenated
markdown.  The Python dict is insertion ordered, so it is modelled by an
association list.  Unlike `extract_bounding_boxes`, this loop accesses
`chunk.grounding.page` and `chunk.markdown` without any guard: when
`grounding` is `None`/missing it raises `AttributeError`, and a missing
`markdown` likewise raises; the model therefore returns `Option`, `none`
standing for the raised exception. -/

/-- Lookup in the insertion-ordered page map (Python `pages[page_index]` /
`page_index in pages`). -/
def lookupPage (p : ℤ) : List (ℤ × String) → Option String
  | [] => none
  | e :: rest => if e.1 = p then some e.2 else lookupPage p rest

/-- One iteration's dict update (`src/app.py` lines 109-112):
`pages[page_index] = chunk.markdown` when the key is new, else
`pages[page_index] += "\n\n" + chunk.markdown`. -/
def addPage (pages : List (ℤ × String)) (p : ℤ) (md : String) :
    List (ℤ × String) :=
  if pages.any (fun e => e.1 = p) then
    pages.map (fun e => if e.1 = p then (e.1, e.2 ++ "\n\n" ++ md) else e)
  else
    pages ++ [(p, md)]

/-- One iteration of the aggregation loop: reads `chunk.grounding.page` and
`chunk.markdown`, both unguarded — `none` models the `AttributeError` raised
when either is missing. -/
def pagesStep (pages : List (ℤ × String)) (c : Chunk) :
    Option (List (ℤ × String)) :=
  match c.grounding with
  | none => none
  | some g =>
    match c.markdown with
    | none => none
    | some md => some (addPage pages g.page md)

/-- The aggregation loop body, threading the dict through the chunk list. -/
def pagesGo (pages : List (ℤ × String)) : List Chunk → Option (List (ℤ × String))
  | [] => some pages
  | c :: cs => (pagesStep pages c).bind (fun pages2 => pagesGo pages2 cs)

/-- The page markdown aggregate built by `main` (`src/app.py` lines 105-112)
from `parse_result.chunks`; `none` models the loop raising. -/
def aggregatePages (cs : List Chunk) : Option (List (ℤ × String)) :=
  pagesGo [] cs

/-- The markdown strings of the chunks on page `p`, in chunk order (only
chunks carrying both a grounding and a markdown contribute; an earlier chunk
missing one of them would already have made the loop raise). -/
def pageMds (p : ℤ) (cs : List Chunk) : List String :=
  cs.filterMap fun c =>
    match c.grounding, c.markdown with
    | some g, some md => if g.page = p then some md else none
    | _, _ => none

/-- Left fold joining markdown snippets with the blank-line separator, seeded
with the first snippet. -/
def sepFold (s : String) (mds : List String) : String :=
  mds.foldl (fun acc md => acc ++ "\n\n" ++ md) s

/-! ### Box renderer (`src/processing.py` lines 43-97)

`draw_bounding_boxes` copies the input image, then issues a sequence of
`ImageDraw` operations against the copy.  The drawing is modelled in two
layers, mirroring that structure:

  * the *command trace* the source issues (`DrawCmd`), computed from the box
    list and a `FontEnv` describing the environment-dependent font facts
    (whether "Arial Bold.ttf" loads; whether `draw.textbbox` exists; the text
    extents each font reports) — this layer is read straight off the source;
  * a pixel interpreter `applyCmd` giving the Pillow primitives a concrete
    deterministic rasterization on a pixel grid.  Pillow's exact pixel
    choices are library internals outside this repository; the properties
    proved below (non-mutation, determinism, color selection) do not depend
    on which pixels a primitive paints, only on it being a function of the
    command and the grid. -/

/-- One `ImageDraw` operation issued by `draw_bounding_boxes`: an outlined
rectangle, a filled rectangle, or a text draw. -/
inductive DrawCmd where
  | rectOutline (x1 y1 x2 y2 : ℚ) (color : String) (width : ℕ)
  | rectFill (x1 y1 x2 y2 : ℚ) (color : String)
  | text (x y : ℚ) (s : String) (color : String)
deriving DecidableEq, Repr

/-- The environment-dependent font facts of `src/processing.py` lines 56-61
and 74-80: whether the preferred truetype font loads (else the default font),
whether `draw.textbbox` is available (else `font.getsize`), and the integer
text extents each of the two fonts reports under each of the two APIs. -/
structure FontEnv where
  truetypeOk : Bool
  textbboxOk : Bool
  ttBbox : String → ℤ × ℤ × ℤ × ℤ
  defBbox : String → ℤ × ℤ × ℤ × ℤ
  ttGetsize : String → ℤ × ℤ
  defGetsize : String → ℤ × ℤ

/-- The `(text_w, text_h)` computed on lines 76-80: `draw.textbbox` when
available (width = right − left, height = bottom − top of the reported box),
else the `font.getsize` fallback; in either case under the font selected on
lines 56-61. -/
def textExtent (env : FontEnv) (s : String) : ℤ × ℤ :=
  if env.textbboxOk then
    let bb := if env.truetypeOk then env.ttBbox s else env.defBbox s
    (bb.2.2.1 - bb.1, bb.2.2.2 - bb.2.1)
  else
    if env.truetypeOk then env.ttGetsize s else env.defGetsize s

/-- The commands issued for a single box (`src/processing.py` lines 63-95):
the outlined rectangle with label-selected color and stroke width 2, then —
when the label string is non-empty (the font is never `None`: either the
truetype font or the built-in default is loaded) — the filled label
background above the box's top edge, clamped at 0, and the white label text
inset by the 10-pixel padding. -/
def renderBox (env : FontEnv) (b : Box) : List DrawCmd :=
  let color := if b.label = "text" then "red" else "blue"
  let rectCmd := DrawCmd.rectOutline b.x1 b.y1 b.x2 b.y2 color 2
  let labelCmds :=
    if b.label = "" then []
    else
      let wh := textExtent env b.label
      let padding : ℚ := 10
      let bgTop : ℚ := max 0 (b.y1 - (wh.2 : ℚ) - 2 * padding)
      [DrawCmd.rectFill b.x1 bgTop (b.x1 + (wh.1 : ℚ) + 2 * padding) b.y1 color,
       DrawCmd.text (b.x1 + padding) (bgTop + padding) b.label "white"]
  rectCmd :: labelCmds

/-- The full command trace of `draw_bounding_boxes` for a box list, in
iteration order. -/
def drawCommands (env : FontEnv) (boxes : List Box) : List DrawCmd :=
  boxes.flatMap (renderBox env)

/-- Pixel data of an image: rows of color names (row-major).  Dimensions are
implicit in the list shape. -/
def Grid : Type := List (List String)

instance : DecidableEq Grid := by
  unfold Grid
  infer_instance

/-- Whether integer pixel `(ix, iy)` lies inside the closed rational
rectangle `[x1, x2] × [y1, y2]`. -/
def inRect (x1 y1 x2 y2 : ℚ) (ix iy : ℕ) : Bool :=
  decide (x1 ≤ (ix : ℚ) ∧ (ix : ℚ) ≤ x2 ∧ y1 ≤ (iy : ℚ) ∧ (iy : ℚ) ≤ y2)

/-- Paint every pixel satisfying `p` with `color`. -/
def paint (g : Grid) (p : ℕ → ℕ → Bool) (color : String) : Grid :=
  g.mapIdx fun iy row => row.mapIdx fun ix old =>
    if p ix iy then color else old

/-- Interpretation of one drawing command on a pixel grid: a concrete
deterministic rasterization model of the Pillow primitive (outline = the
closed rectangle minus its interior shrunk by the stroke width; fill = the
closed rectangle; text = the pixel at the anchor).  The theorems below do not
depend on these pixel choices. -/
def applyCmd (g : Grid) : DrawCmd → Grid
  | DrawCmd.rectOutline x1 y1 x2 y2 color w =>
    paint g
      (fun ix iy =>
        inRect x1 y1 x2 y2 ix iy &&
          !inRect (x1 + w) (y1 + w) (x2 - w) (y2 - w) ix iy)
      color
  | DrawCmd.rectFill x1 y1 x2 y2 color =>
    paint g (inRect x1 y1 x2 y2) color
  | DrawCmd.text x y _ color =>
    paint g (fun ix iy => decide ((ix : ℚ) = x ∧ (iy : ℚ) = y)) color

/-- The pixel data of the annotated copy: the command trace applied in order
to the copied grid. -/
def renderImage (env : FontEnv) (g : Grid) (boxes : List Box) : Grid :=
  (drawCommands env boxes).foldl applyCmd g

/-- A store of live image objects; a PIL image object is a reference (index)
into it.  `image.copy()` allocates a fresh object; `ImageDraw.Draw(annotated)`
mutates only the object it was constructed on. -/
structure ImageStore where
  images : List Grid

/-- `draw_bounding_boxes(image, boxes)` (`src/processing.py` lines 43-97) in
the object-store model: copy the grid at `r` into a fresh object (line 53),
mutate only that fresh object through the draw commands (lines 54-95), and
return it (line 97). -/
def draw_bounding_boxes (env : FontEnv) (s : ImageStore) (r : ℕ)
    (boxes : List Box) : ImageStore × ℕ :=
  let annotated := renderImage env (s.images.getD r []) boxes
  (⟨s.images ++ [annotated]⟩, s.images.length)

/-! ### Client construction (`src/landingai_client.py` lines 19-21) -/

/-- Python's `a or b` on optional strings: `a` when it is a non-empty string
(truthy), else `b`.  Models `api_key or os.getenv("LANDINGAI_API_KEY")`;
`none` covers both an absent argument and an unset environment variable. -/
def pythonOr (a b : Option String) : Option String :=
  match a with
  | some s => if s = "" then b else some s
  | none => b

/-- The constructed SDK client (only its credential is observable here). -/
structure SDKClient where
  apikey : Option String
deriving DecidableEq, Repr

/-- The configuration-error message of the modelled SDK constructor. -/
def missingKeyError : String := "missing API key"

/-- Modelled from the spec: the vendor SDK constructor
`LandingAIADE(apikey=...)` (the `landingai_ade` package, not part of this
repository).  Per the spec's error taxonomy — "*Configuration error*: missing
credential and no usable default — surfaced immediately, aborts before any
network call" — it raises when handed no credential, and performs no network
call itself. -/
def mkLandingAIADE (apikey : Option String) : Except String SDKClient :=
  match apikey with
  | none => Except.error missingKeyError
  | some k => Except.ok ⟨some k⟩

/-- `LandingAIClient.__init__` (`src/landingai_client.py` lines 19-21):
resolve the credential as `api_key or os.getenv("LANDINGAI_API_KEY")`, then
construct the SDK client with it; a constructor error propagates (surfaces at
`LandingAIClient` construction).  `env` is the value of the
`LANDINGAI_API_KEY` environment variable. -/
def LandingAIClient.init (api_key env : Option String) :
    Except String (Option String × SDKClient) :=
  let key := pythonOr api_key env
  (mkLandingAIADE key).map fun c => (key, c)

/-! ### `parse_document` temp-file lifecycle
(`src/landingai_client.py` lines 23-55)

The filesystem is modelled as the list of live temp-file ids plus a fresh-id
counter.  The SDK `parse` call is abstracted to its outcome (`Except`), and
whether `tmp_path.unlink` itself raises is an environment parameter; the
document bytes and filename do not influence the lifecycle, only the temp
file's name/content. -/

/-- Filesystem state: live temp files (by id) and the next fresh id. -/
structure TempState where
  files : List ℕ
  nextId : ℕ
deriving DecidableEq, Repr

/-- `LandingAIClient.parse_document` (`src/landingai_client.py` lines 23-55):
create a temp file holding the document bytes (lines 36-39); `try` the SDK
parse call, whose failure is re-raised as `Exception(str(exc))` — same
message, new exception object (lines 41-47); `finally` unlink the temp file,
swallowing any unlink failure (lines 48-53); return the response or propagate
the (wrapped) parse error. -/
def parse_document (parseOutcome : Except String ParseResult)
    (unlinkRaises : Bool) (st : TempState) :
    Except String ParseResult × TempState :=
  let tmpId := st.nextId
  let st1 : TempState := ⟨st.files ++ [tmpId], st.nextId + 1⟩
  let st2 : TempState :=
    if unlinkRaises then st1 else ⟨st1.files.erase tmpId, st1.nextId⟩
  let result : Except String ParseResult :=
    match parseOutcome with
    | Except.ok r => Except.ok r
    | Except.error e => Except.error e
  (result, st2)

/-! ## Theorems -/

/-- **C10.** If the parse response has no `chunks` attribute (or it is
`None`), or `chunks` is the empty sequence, `extract_bounding_boxes` returns
the empty list rather than raising (the model is a total function; the guard
`getattr(parse_result, "chunks", []) or []` yields `[]` in all three cases). -/
theorem extract_no_chunks_empty :
    ∀ img : PILImage,
      extract_bounding_boxes ⟨none⟩ img = [] ∧
      extract_bounding_boxes ⟨some []⟩ img = [] := by
  intro img
  exact ⟨rfl, rfl⟩

/-- **C1.** For every chunk in the parse response carrying a grounding box
with components in `[0,1]`, the rectangle produced by
`extract_bounding_boxes` on a reference image of pixel size `(W,H)` has
`x1 = left*W`, `y1 = top*H`, `x2 = right*W`, `y2 = bottom*H`, at the chunk's
position in the output. -/
theorem extract_scales_grounded_chunk
    (pre post : List Chunk) (c : Chunk) (g : Grounding) (b : BBox)
    (img : PILImage)
    (hg : c.grounding = some g) (hb : g.box = some b)
    (hl : 0 ≤ b.left ∧ b.left ≤ 1) (ht : 0 ≤ b.top ∧ b.top ≤ 1)
    (hr : 0 ≤ b.right ∧ b.right ≤ 1) (hbt : 0 ≤ b.bottom ∧ b.bottom ≤ 1) :
    extract_bounding_boxes ⟨some (pre ++ c :: post)⟩ img =
      extract_bounding_boxes ⟨some pre⟩ img ++
        ({ page_index := g.page
           x1 := b.left * img.width
           y1 := b.top * img.height
           x2 := b.right * img.width
           y2 := b.bottom * img.height
           label := chunkLabel c
           text := chunkText c } : Box) ::
        extract_bounding_boxes ⟨some post⟩ img := by
  have hc : chunkBox img c =
      some
        { page_index := g.page
          x1 := b.left * img.width
          y1 := b.top * img.height
          x2 := b.right * img.width
          y2 := b.bottom * img.height
          label := chunkLabel c
          text := chunkText c } := by
    simp [chunkBox, hg, hb]
  simp [extract_bounding_boxes, List.filterMap_append, List.filterMap_cons, hc]

/-- Witness for C1: the spec's scenario — one chunk with grounding
`{left: 0.1, top: 0.2, right: 0.5, bottom: 0.6}` on page 0, image 1000×2000 —
yields the rectangle `(100, 400, 500, 1200)` with page_index 0. -/
theorem extract_scales_grounded_chunk_witness :
    extract_bounding_boxes
      ⟨some [{ type := some "text", markdown := some "hello", text := none,
               grounding := some ⟨0, some ⟨1/10, 1/5, 1/2, 3/5⟩⟩ }]⟩
      ⟨1000, 2000⟩ =
      [{ page_index := 0, x1 := 100, y1 := 400, x2 := 500, y2 := 1200,
         label := "text", text := "hello" }] := by
  have h := extract_scales_grounded_chunk [] []
    { type := some "text", markdown := some "hello", text := none,
      grounding := some ⟨0, some ⟨1/10, 1/5, 1/2, 3/5⟩⟩ }
    ⟨0, some ⟨1/10, 1/5, 1/2, 3/5⟩⟩ ⟨1/10, 1/5, 1/2, 3/5⟩ ⟨1000, 2000⟩
    rfl rfl (by norm_num) (by norm_num) (by norm_num) (by norm_num)
  simp only [List.nil_append] at h
  rw [h]
  norm_num [extract_bounding_boxes, List.filterMap_cons, chunkLabel, chunkText,
    Box.mk.injEq]
  all_goals decide

/-- **C3.** A chunk without grounding, or with grounding but no box,
contributes no rectangle — regardless of its text — and the skip is silent:
extraction of the remaining chunks is exactly the extraction of the list with
that chunk removed. -/
theorem ungrounded_chunk_skipped
    (pre post : List Chunk) (c : Chunk) (img : PILImage)
    (h : c.grounding = none ∨ ∃ g, c.grounding = some g ∧ g.box = none) :
    extract_bounding_boxes ⟨some (pre ++ c :: post)⟩ img =
      extract_bounding_boxes ⟨some (pre ++ post)⟩ img := by
  have hc : chunkBox img c = none := by
    rcases h with h | ⟨g, hg, hb⟩
    · simp [chunkBox, h]
    · simp [chunkBox, hg, hb]
  simp [extract_bounding_boxes, List.filterMap_append, List.filterMap_cons, hc]

/-- Witness for C3: a response with a grounded chunk followed by a text-only
chunk (no grounding) yields exactly the grounded chunk's rectangle. -/
theorem ungrounded_chunk_skipped_witness :
    extract_bounding_boxes
      ⟨some [{ type := some "text", markdown := some "A", text := none,
               grounding := some ⟨0, some ⟨0, 0, 1, 1⟩⟩ },
             { type := some "text", markdown := some "B", text := none,
               grounding := none }]⟩
      ⟨10, 20⟩ =
      [{ page_index := 0, x1 := 0, y1 := 0, x2 := 10, y2 := 20,
         label := "text", text := "A" }] := by
  have h := ungrounded_chunk_skipped
    [{ type := some "text", markdown := some "A", text := none,
       grounding := some ⟨0, some ⟨0, 0, 1, 1⟩⟩ }] []
    { type := some "text", markdown := some "B", text := none,
      grounding := none }
    ⟨10, 20⟩ (Or.inl rfl)
  simp only [List.cons_append, List.nil_append, List.append_nil] at h
  rw [h]
  norm_num [extract_bounding_boxes, List.filterMap_cons, chunkBox, chunkLabel,
    chunkText, Box.mk.injEq]
  all_goals decide

/-- **C5 counterexample.** The claim "every rectangle produced by
`extract_bounding_boxes` satisfies `x1 ≤ x2` and `y1 ≤ y2`" is false: nothing
validates the orientation of the vendor box, so a response whose box has
`left > right` and `top > bottom` (all components still in `[0,1]`) produces
a rectangle with `x1 > x2` and `y1 > y2`. -/
theorem rect_ordering_cex :
    ¬ (∀ r ∈ extract_bounding_boxes
          ⟨some [{ type := none, markdown := none, text := none,
                   grounding := some ⟨0, some ⟨1/2, 1/2, 1/10, 1/10⟩⟩ }]⟩
          ⟨100, 200⟩,
        r.x1 ≤ r.x2 ∧ r.y1 ≤ r.y2) := by
  intro h
  have h2 := h
    { page_index := 0, x1 := 50, y1 := 100, x2 := 10, y2 := 20,
      label := "chunk", text := "" }
    (by norm_num [extract_bounding_boxes, List.filterMap_cons, chunkBox,
      chunkLabel, chunkText, Box.mk.injEq])
  norm_num at h2

/-- **C5 (amended).** Every rectangle produced by `extract_bounding_boxes`
from a response whose grounding boxes are well-oriented (`left ≤ right` and
`top ≤ bottom`) satisfies `x1 ≤ x2` and `y1 ≤ y2`, its coordinates being the
normalized region scaled by the image's pixel dimensions. -/
theorem rect_ordering_of_oriented_boxes
    (resp : ParseResult) (img : PILImage) (r : Box)
    (hwf : ∀ c ∈ (resp.chunks).getD [], ∀ g, c.grounding = some g →
      ∀ b, g.box = some b → b.left ≤ b.right ∧ b.top ≤ b.bottom)
    (hr : r ∈ extract_bounding_boxes resp img) :
    r.x1 ≤ r.x2 ∧ r.y1 ≤ r.y2 := by
  obtain ⟨c, hc, hcr⟩ := List.mem_filterMap.mp hr
  match hg : c.grounding with
  | none => simp [chunkBox, hg] at hcr
  | some g =>
    match hb : g.box with
    | none => simp [chunkBox, hg, hb] at hcr
    | some b =>
      have hwfb := hwf c hc g hg b hb
      simp [chunkBox, hg, hb] at hcr
      have hW : (0 : ℚ) ≤ (img.width : ℚ) := by positivity
      have hH : (0 : ℚ) ≤ (img.height : ℚ) := by positivity
      subst hcr
      exact ⟨mul_le_mul_of_nonneg_right hwfb.1 hW,
             mul_le_mul_of_nonneg_right hwfb.2 hH⟩

/-- Witness for the amended C5: the rectangle extracted from a well-oriented
box (`0.1 ≤ 0.5`, `0.2 ≤ 0.6`) on a 100×200 image satisfies the ordering. -/
theorem rect_ordering_of_oriented_boxes_witness :
    ({ page_index := 0, x1 := 10, y1 := 40, x2 := 50, y2 := 120,
       label := "chunk", text := "" } : Box).x1 ≤
        ({ page_index := 0, x1 := 10, y1 := 40, x2 := 50, y2 := 120,
           label := "chunk", text := "" } : Box).x2 ∧
      ({ page_index := 0, x1 := 10, y1 := 40, x2 := 50, y2 := 120,
         label := "chunk", text := "" } : Box).y1 ≤
        ({ page_index := 0, x1 := 10, y1 := 40, x2 := 50, y2 := 120,
           label := "chunk", text := "" } : Box).y2 :=
  rect_ordering_of_oriented_boxes
    ⟨some [{ type := none, markdown := none, text := none,
             grounding := some ⟨0, some ⟨1/10, 1/5, 1/2, 3/5⟩⟩ }]⟩
    ⟨100, 200⟩
    { page_index := 0, x1 := 10, y1 := 40, x2 := 50, y2 := 120,
      label := "chunk", text := "" }
    (by
      intro c hc g hg b hb
      simp only [Option.getD, List.mem_singleton] at hc
      subst hc
      simp only [Option.some.injEq] at hg
      subst hg
      simp only [Option.some.injEq] at hb
      subst hb
      norm_num)
    (by norm_num [extract_bounding_boxes, List.filterMap_cons, chunkBox,
      chunkLabel, chunkText, Box.mk.injEq])


/-- **C6.** `draw_bounding_boxes` returns a new image object distinct from
the input, and the input image's pixel data is unchanged after rendering: the
source copies the image (line 53) and draws only on the copy. -/
theorem draw_nondestructive (env : FontEnv) (s : ImageStore) (r : ℕ)
    (boxes : List Box) (h : r < s.images.length) :
    (draw_bounding_boxes env s r boxes).2 ≠ r ∧
      (draw_bounding_boxes env s r boxes).1.images[r]? = s.images[r]? := by
  constructor
  · exact fun heq => absurd (heq ▸ h) (lt_irrefl _)
  · exact List.getElem?_append_left h

/-- Witness for C6 on a one-pixel white image and a single box. -/
theorem draw_nondestructive_witness :
    (draw_bounding_boxes
        ⟨true, true, fun _ => (0, 0, 0, 0), fun _ => (0, 0, 0, 0),
         fun _ => (0, 0), fun _ => (0, 0)⟩
        ⟨[[["white"]]]⟩ 0
        [{ page_index := 0, x1 := 0, y1 := 0, x2 := 1, y2 := 1,
           label := "text", text := "t" }]).2 ≠ 0 ∧
      (draw_bounding_boxes
          ⟨true, true, fun _ => (0, 0, 0, 0), fun _ => (0, 0, 0, 0),
           fun _ => (0, 0), fun _ => (0, 0)⟩
          ⟨[[["white"]]]⟩ 0
          [{ page_index := 0, x1 := 0, y1 := 0, x2 := 1, y2 := 1,
             label := "text", text := "t" }]).1.images[0]? =
        (⟨[[["white"]]]⟩ : ImageStore).images[0]? :=
  draw_nondestructive
    ⟨true, true, fun _ => (0, 0, 0, 0), fun _ => (0, 0, 0, 0),
     fun _ => (0, 0), fun _ => (0, 0)⟩
    ⟨[[["white"]]]⟩ 0
    [{ page_index := 0, x1 := 0, y1 := 0, x2 := 1, y2 := 1,
       label := "text", text := "t" }]
    (by decide)

/-- The annotated grid returned by `draw_bounding_boxes` is the rendering of
the input object's pixel data. -/
theorem draw_output_grid (env : FontEnv) (s : ImageStore) (r : ℕ)
    (boxes : List Box) :
    (draw_bounding_boxes env s r boxes).1.images.getD
        (draw_bounding_boxes env s r boxes).2 [] =
      renderImage env (s.images.getD r []) boxes := by
  simp [draw_bounding_boxes, List.getD, List.getElem?_concat_length]

/-- **C7.** Rendering the same rectangle list onto two image objects with
identical pixel data (in particular, two fresh copies of the same base image)
produces pixel-identical outputs: `draw_bounding_boxes` is deterministic,
depending only on the pixel data, the boxes and the font environment. -/
theorem draw_deterministic (env : FontEnv) (s : ImageStore) (i j : ℕ)
    (boxes : List Box) (h : s.images.getD i [] = s.images.getD j []) :
    (draw_bounding_boxes env s i boxes).1.images.getD
        (draw_bounding_boxes env s i boxes).2 [] =
      (draw_bounding_boxes env s j boxes).1.images.getD
        (draw_bounding_boxes env s j boxes).2 [] := by
  rw [draw_output_grid, draw_output_grid, h]

/-- Witness for C7: a store holding two copies of the same one-pixel image. -/
theorem draw_deterministic_witness :
    (draw_bounding_boxes
        ⟨true, true, fun _ => (0, 0, 0, 0), fun _ => (0, 0, 0, 0),
         fun _ => (0, 0), fun _ => (0, 0)⟩
        ⟨[[["white"]], [["white"]]]⟩ 0
        [{ page_index := 0, x1 := 0, y1 := 0, x2 := 1, y2 := 1,
           label := "text", text := "t" }]).1.images.getD
        (draw_bounding_boxes
            ⟨true, true, fun _ => (0, 0, 0, 0), fun _ => (0, 0, 0, 0),
             fun _ => (0, 0), fun _ => (0, 0)⟩
            ⟨[[["white"]], [["white"]]]⟩ 0
            [{ page_index := 0, x1 := 0, y1 := 0, x2 := 1, y2 := 1,
               label := "text", text := "t" }]).2 [] =
      (draw_bounding_boxes
          ⟨true, true, fun _ => (0, 0, 0, 0), fun _ => (0, 0, 0, 0),
           fun _ => (0, 0), fun _ => (0, 0)⟩
          ⟨[[["white"]], [["white"]]]⟩ 1
          [{ page_index := 0, x1 := 0, y1 := 0, x2 := 1, y2 := 1,
             label := "text", text := "t" }]).1.images.getD
        (draw_bounding_boxes
            ⟨true, true, fun _ => (0, 0, 0, 0), fun _ => (0, 0, 0, 0),
             fun _ => (0, 0), fun _ => (0, 0)⟩
            ⟨[[["white"]], [["white"]]]⟩ 1
            [{ page_index := 0, x1 := 0, y1 := 0, x2 := 1, y2 := 1,
               label := "text", text := "t" }]).2 [] :=
  draw_deterministic
    ⟨true, true, fun _ => (0, 0, 0, 0), fun _ => (0, 0, 0, 0),
     fun _ => (0, 0), fun _ => (0, 0)⟩
    ⟨[[["white"]], [["white"]]]⟩ 0 1
    [{ page_index := 0, x1 := 0, y1 := 0, x2 := 1, y2 := 1,
       label := "text", text := "t" }]
    rfl

/-- The outline-rectangle commands of a trace, with their arguments. -/
def outlineOf : DrawCmd → Option (ℚ × ℚ × ℚ × ℚ × String × ℕ)
  | DrawCmd.rectOutline x1 y1 x2 y2 color w => some (x1, y1, x2, y2, color, w)
  | DrawCmd.rectFill _ _ _ _ _ => none
  | DrawCmd.text _ _ _ _ => none

/-- The command trace for a single box contains exactly one outline
rectangle: the box's coordinates, stroke width 2, colored red when the label
is `"text"`, blue otherwise. -/
theorem renderBox_outline (env : FontEnv) (b : Box) :
    (renderBox env b).filterMap outlineOf =
      [(b.x1, b.y1, b.x2, b.y2,
        if b.label = "text" then "red" else "blue", 2)] := by
  by_cases h : b.label = "" <;>
    simp [renderBox, outlineOf, h, List.filterMap_cons]

/-- **C8.** The outline color of every rectangle drawn by
`draw_bounding_boxes` is selected solely by the label: the trace's outline
commands are exactly one per box, in order, at the box's coordinates with
stroke width 2, colored `"red"` when the label equals `"text"` and `"blue"`
for any other label. -/
theorem outline_color_by_label (env : FontEnv) (boxes : List Box) :
    (drawCommands env boxes).filterMap outlineOf =
      boxes.map (fun b => (b.x1, b.y1, b.x2, b.y2,
        if b.label = "text" then "red" else "blue", 2)) := by
  induction boxes with
  | nil => rfl
  | cons b bs ih =>
    simp only [drawCommands, List.flatMap_cons, List.filterMap_append,
      List.map_cons] at *
    rw [renderBox_outline, ih]
    rfl

/-- **C4.** When no credential is supplied (`None`, or the empty string the
UI hands over for a blank field — both falsy for Python's `or`) and the
`LANDINGAI_API_KEY` environment default is unset, `LandingAIClient`
construction surfaces a configuration error immediately; no network call is
involved, since `__init__` only resolves the credential and constructs the
SDK client, and the extraction call lives in `parse_document` on the
never-constructed client. -/
theorem missing_credential_errors (api_key env : Option String)
    (hak : api_key = none ∨ api_key = some "") (henv : env = none) :
    LandingAIClient.init api_key env = Except.error missingKeyError := by
  rcases hak with h | h <;> subst h <;> subst henv <;> rfl

/-- Witness for C4: the app's `LandingAIClient()` call (no argument) with the
environment variable unset. -/
theorem missing_credential_errors_witness :
    LandingAIClient.init none none = Except.error missingKeyError :=
  missing_credential_errors none none (Or.inl rfl) rfl

/-- **C9.** `parse_document` runs the temp-file unlink on every exit path —
the returned outcome equals the SDK call's outcome whether it succeeds or
raises, and when the unlink works the filesystem is restored exactly to its
prior state; a failing unlink is swallowed (the outcome is still returned
unchanged), leaving only the temp file behind. -/
theorem temp_file_cleanup (po : Except String ParseResult) (ur : Bool)
    (st : TempState) (hfresh : st.nextId ∉ st.files) :
    (parse_document po ur st).1 = po ∧
      (ur = false → (parse_document po ur st).2.files = st.files) ∧
      (ur = true →
        (parse_document po ur st).2.files = st.files ++ [st.nextId]) := by
  refine ⟨?_, ?_, ?_⟩
  · cases po <;> rfl
  · intro h
    subst h
    show (st.files ++ [st.nextId]).erase st.nextId = st.files
    rw [List.erase_append_right _ hfresh, List.erase_cons_head,
      List.append_nil]
  · intro h
    subst h
    rfl

/-- Witness for C9: a failing SDK call over a filesystem already holding one
temp file; the error is returned as-is and the new temp file is gone. -/
theorem temp_file_cleanup_witness :
    (parse_document (Except.error "parse failed") false ⟨[3], 7⟩).1 =
        Except.error "parse failed" ∧
      (false = false →
        (parse_document (Except.error "parse failed") false ⟨[3], 7⟩).2.files =
          [3]) ∧
      (false = true →
        (parse_document (Except.error "parse failed") false ⟨[3], 7⟩).2.files =
          [3] ++ [7]) :=
  temp_file_cleanup (Except.error "parse failed") false ⟨[3], 7⟩ (by decide)

/-- Looking a page up after the "existing key" branch of the dict update
(append `"\n\n" + md` to the entry for `q`, leave other entries alone). -/
theorem lookupPage_map_add (pages : List (ℤ × String)) (q p : ℤ)
    (md : String) :
    lookupPage p
        (pages.map fun e =>
          if e.1 = q then (e.1, e.2 ++ "\n\n" ++ md) else e) =
      if p = q then (lookupPage p pages).map (fun s => s ++ "\n\n" ++ md)
      else lookupPage p pages := by
  induction pages with
  | nil => simp [lookupPage]
  | cons e rest ih =>
    by_cases h1 : e.1 = q <;> by_cases h2 : e.1 = p <;>
      by_cases h3 : p = q <;>
      simp_all [lookupPage]

/-- Looking a page up after the "new key" branch of the dict update
(insertion at the end). -/
theorem lookupPage_append_single (pages : List (ℤ × String)) (p q : ℤ)
    (md : String) :
    lookupPage p (pages ++ [(q, md)]) =
      match lookupPage p pages with
      | some s => some s
      | none => if p = q then some md else none := by
  induction pages with
  | nil =>
    simp only [List.nil_append, lookupPage]
    by_cases h : p = q
    · subst h; simp
    · simp [h, Ne.symm h]
  | cons e rest ih =>
    simp only [List.cons_append, lookupPage]
    by_cases h : e.1 = p <;> simp [h, ih]

/-- `page_index in pages` (the `any` test of the model) agrees with the
lookup being defined. -/
theorem lookupPage_isSome_any (p : ℤ) (pages : List (ℤ × String)) :
    pages.any (fun e => e.1 = p) = (lookupPage p pages).isSome := by
  induction pages with
  | nil => rfl
  | cons e rest ih => by_cases h : e.1 = p <;> simp [lookupPage, h, ih]

/-- The dict update of the aggregation loop, seen through lookup: the entry
for the updated page gains `md` (joined with the blank-line separator when
the page already had text); every other page is untouched. -/
theorem lookupPage_addPage (pages : List (ℤ × String)) (q p : ℤ)
    (md : String) :
    lookupPage p (addPage pages q md) =
      if p = q then
        some ((lookupPage p pages).elim md (fun s => s ++ "\n\n" ++ md))
      else lookupPage p pages := by
  unfold addPage
  by_cases hany : pages.any (fun e => e.1 = q) = true
  · rw [if_pos hany, lookupPage_map_add]
    by_cases h3 : p = q
    · subst h3
      cases hlk : lookupPage p pages with
      | none => rw [lookupPage_isSome_any, hlk] at hany; simp at hany
      | some s => simp [hlk]
    · simp [h3]
  · rw [if_neg hany, lookupPage_append_single]
    by_cases h3 : p = q
    · subst h3
      cases hlk : lookupPage p pages with
      | none => simp [hlk]
      | some s => rw [lookupPage_isSome_any, hlk] at hany; simp at hany
    · cases hlk : lookupPage p pages <;> simp [hlk, h3]

/-- Invariant of the aggregation loop: provided every chunk carries a
grounding and a markdown, the loop completes, and each page's final entry is
its incoming entry extended, in chunk order, by the markdowns of the chunks
on that page, blank-line separated. -/
theorem pagesGo_lookup (cs : List Chunk) :
    ∀ pages : List (ℤ × String),
      (∀ c ∈ cs, (c.grounding).isSome ∧ (c.markdown).isSome) →
      ∃ res, pagesGo pages cs = some res ∧
        ∀ p : ℤ, lookupPage p res =
          match lookupPage p pages, pageMds p cs with
          | none, [] => none
          | none, m :: rest => some (sepFold m rest)
          | some s, mds => some (sepFold s mds) := by
  induction cs with
  | nil =>
    intro pages _
    refine ⟨pages, rfl, fun p => ?_⟩
    cases hlk : lookupPage p pages <;> simp [pageMds, sepFold, hlk]
  | cons c cs ih =>
    intro pages h
    obtain ⟨hgs, hmds0⟩ := h c (List.mem_cons_self c cs)
    obtain ⟨g, hg⟩ := Option.isSome_iff_exists.mp hgs
    obtain ⟨md, hmd⟩ := Option.isSome_iff_exists.mp hmds0
    have hrest : ∀ c2 ∈ cs, (c2.grounding).isSome ∧ (c2.markdown).isSome :=
      fun c2 hc2 => h c2 (List.mem_cons_of_mem c hc2)
    obtain ⟨res, hres, hlook⟩ := ih (addPage pages g.page md) hrest
    refine ⟨res, ?_, ?_⟩
    · simp [pagesGo, pagesStep, hg, hmd, hres]
    · intro p
      have hmdsc : pageMds p (c :: cs) =
          if g.page = p then md :: pageMds p cs else pageMds p cs := by
        by_cases hq : g.page = p <;>
          simp [pageMds, List.filterMap_cons, hg, hmd, hq]
      rw [hlook p, lookupPage_addPage, hmdsc]
      by_cases hpq : p = g.page
      · subst hpq
        rw [if_pos rfl, if_pos rfl]
        cases hlk : lookupPage g.page pages <;> rfl
      · rw [if_neg hpq, if_neg (fun hh => hpq hh.symm)]

/-- **C2 counterexample.** The claim fails on a response with two chunks on
the same page where one chunk lacks grounding: the aggregation loop in
`main` reads `chunk.grounding.page` unconditionally, so the grounding-less
chunk raises `AttributeError` (modelled as `none`) instead of the aggregate
containing both chunks' text. -/
theorem aggregate_ungrounded_cex :
    aggregatePages
      [{ type := some "text", markdown := some "A", text := none,
         grounding := some ⟨0, some ⟨0, 0, 1, 1⟩⟩ },
       { type := some "text", markdown := some "B", text := none,
         grounding := none }] = none := by
  decide

/-- **C2 (amended).** For every parse response all of whose chunks carry a
grounding (with a page index) and a markdown, the page-markdown aggregate
maps each page index to the concatenation, in chunk order, of every chunk's
markdown on that page joined with the blank-line separator; a chunk whose
grounding has no box (text-only for the extractor) still contributes, but a
chunk lacking grounding altogether makes the loop raise
(see the counterexample) rather than contribute. -/
theorem aggregate_pages_characterization (cs : List Chunk)
    (h : ∀ c ∈ cs, (c.grounding).isSome ∧ (c.markdown).isSome) :
    ∃ pages, aggregatePages cs = some pages ∧
      ∀ p : ℤ, lookupPage p pages =
        match pageMds p cs with
        | [] => none
        | m :: rest => some (sepFold m rest) := by
  obtain ⟨res, hres, hlook⟩ := pagesGo_lookup cs [] h
  refine ⟨res, hres, fun p => ?_⟩
  rw [hlook p]
  cases pageMds p cs <;> rfl

/-- Witness for the amended C2: two chunks on page 0, the second with
grounding but no box — the aggregate holds both texts joined by the
blank-line separator. -/
theorem aggregate_pages_characterization_witness :
    aggregatePages
        [{ type := some "text", markdown := some "A", text := none,
           grounding := some ⟨0, some ⟨0, 0, 1, 1⟩⟩ },
         { type := some "text", markdown := some "B", text := none,
           grounding := some ⟨0, none⟩ }] = some [(0, "A\n\nB")] ∧
      ∃ pages,
        aggregatePages
            [{ type := some "text", markdown := some "A", text := none,
               grounding := some ⟨0, some ⟨0, 0, 1, 1⟩⟩ },
             { type := some "text", markdown := some "B", text := none,
               grounding := some ⟨0, none⟩ }] = some pages ∧
          ∀ p : ℤ, lookupPage p pages =
            match pageMds p
                [{ type := some "text", markdown := some "A", text := none,
                   grounding := some ⟨0, some ⟨0, 0, 1, 1⟩⟩ },
                 { type := some "text", markdown := some "B", text := none,
                   grounding := some ⟨0, none⟩ }] with
            | [] => none
            | m :: rest => some (sepFold m rest) :=
  ⟨by decide, aggregate_pages_characterization _ (by decide)⟩

end FinancialOCR
